import Mathlib

/-!
Shallow embedding of `src/main.js` (a todo-list widget): the item record,
the pure collection operations performed by the event handlers, the
render/filter logic, the JSON persistence round trip, and the
mutate → save → render state machine, together with theorems settling the
specification claims.
-/

/-- An item of the collection: `{ value, id, completed }` as created at
`src/main.js` line 94, field order as in the object literal. -/
structure Todo where
  value : String
  id : String
  completed : Bool
deriving DecidableEq, Repr

/-- Line 3: `document.location.hash.replace(/^#\//, '')` — strips one
leading `#/` marker, returns the rest verbatim (empty string when the
fragment is absent). -/
def getURLHash (hash : String) : String :=
  if hash.startsWith "#/" then hash.drop 2 else hash

/-- Line 15: `todos.filter((todo) => !todo.completed)`. -/
def filterNotCompletedTodos (todos : List Todo) : List Todo :=
  todos.filter (fun todo => !todo.completed)

/-- Lines 61–64 of `renderTodos`: start from a copy of `todos`, replace it
by the `active` or `completed` filtering when the filter string matches,
otherwise keep the whole collection. -/
def renderVisible (todos : List Todo) (filter : String) : List Todo :=
  if filter = "active" then todos.filter (fun todo => !todo.completed)
  else if filter = "completed" then todos.filter (fun todo => todo.completed)
  else todos

/-- Line 67: `${filterNotCompletedTodos(todos).length} items left`. -/
def countText (todos : List Todo) : String :=
  toString (filterNotCompletedTodos todos).length ++ " items left"

/-- The observable output of `renderTodos` (lines 56–83) that the claims
are about: the visible filtered subset and the remaining-count text. -/
structure RenderOutput where
  visible : List Todo
  countText : String
deriving DecidableEq, Repr

/-- Lines 56–70 of `renderTodos`: derive the filter from the URL hash,
compute the visible subset, and the count over the FULL `todos` array. -/
def renderTodos (todos : List Todo) (hash : String) : RenderOutput :=
  { visible := renderVisible todos (getURLHash hash),
    countText := countText todos }

/-- The `String.prototype.trim()` of JS, modelled over the character
list: drop leading and trailing whitespace. -/
def jsTrim (s : String) : String :=
  ⟨((s.data.dropWhile Char.isWhitespace).reverse.dropWhile Char.isWhitespace).reverse⟩

/-- Line 93–95 of the input keyup listener: on `Enter` (key name or
keyCode 13) with non-empty trimmed input, push
`{ value: inputEl.value, id: crypto.randomUUID(), completed: false }`;
the fresh id is passed in as `freshId`. The stored `value` is the RAW
input text, only the guard trims. -/
def handleAddKeyup (key : String) (keyCode : Nat) (inputValue freshId : String)
    (todos : List Todo) : List Todo :=
  if (key = "Enter" ∨ keyCode = 13) ∧ jsTrim inputValue ≠ "" then
    todos ++ [{ value := inputValue, id := freshId, completed := false }]
  else todos

/-- Line 107: `todos.map((todo) => (todo.id === el.dataset.id ? { ...todo,
completed: !todo.completed } : todo))`. -/
def toggleOp (todos : List Todo) (rowId : String) : List Todo :=
  todos.map (fun todo =>
    if todo.id = rowId then { todo with completed := !todo.completed } else todo)

/-- Line 114: `todos.filter((todo) => todo.id !== el.dataset.id)`. -/
def removeOp (todos : List Todo) (rowId : String) : List Todo :=
  todos.filter (fun todo => todo.id ≠ rowId)

/-- Line 124: `todos.map((todo) => (todo.id === el.dataset.id ? { ...todo,
value: content } : todo))`. -/
def editOp (todos : List Todo) (rowId : String) (content : String) : List Todo :=
  todos.map (fun todo =>
    if todo.id = rowId then { todo with value := content } else todo)

/-- The data the delegated handlers read from the closest `[data-id]`
ancestor row: its `data-id` attribute and the text content of its
`[data-todo="value"]` region. -/
structure RowEl where
  id : String
  textContent : String
deriving DecidableEq, Repr

/-- A keydown event as seen by the edit handler: `keyCode` and the (unread
by the code) `shiftKey` flag. -/
structure KeyEvent where
  keyCode : Nat
  shiftKey : Bool
deriving DecidableEq, Repr

/-- Reading `el.dataset.id` in JS: throws a TypeError when `el` is `null`
(the `closest` lookup failed). -/
def datasetId : Option RowEl → Except String String
  | none => .error "TypeError: Cannot read properties of null"
  | some row => .ok row.id

/-- Lines 105–109, the toggle click handler body: `el.dataset.id` is read
inside the `map` callback, so it is evaluated once per element (an empty
collection never dereferences `el`). -/
def toggleClickHandler (el : Option RowEl) (todos : List Todo) :
    Except String (List Todo) :=
  todos.mapM (fun todo => do
    let rowId ← datasetId el
    pure (if todo.id = rowId then { todo with completed := !todo.completed } else todo))

/-- Lines 112–116, the remove click handler body: `el.dataset.id` is read
inside the `filter` callback, once per element. -/
def removeClickHandler (el : Option RowEl) : List Todo → Except String (List Todo)
  | [] => .ok []
  | todo :: rest => do
    let rowId ← datasetId el
    let tail ← removeClickHandler el rest
    pure (if todo.id ≠ rowId then todo :: tail else tail)

/-- Lines 119–127, the edit keydown handler body. The guard is
`event.keyCode === 13` only — `shiftKey` is never consulted. Inside the
guard, `e.preventDefault()` runs (the `Bool` in the result), then
`el.querySelector('[data-todo="value"]').textContent` is read (a TypeError
when the `closest` lookup returned `null`), then the `map` replaces the
matching item's `value` by that content. -/
def editKeydownHandler (ev : KeyEvent) (el : Option RowEl) (todos : List Todo) :
    Except String (Bool × List Todo) :=
  if ev.keyCode = 13 then
    match el with
    | none => .error "TypeError: Cannot read properties of null"
    | some row => .ok (true, editOp todos row.id row.textContent)
  else .ok (false, todos)

/-- A JSON value, the shape produced by `JSON.stringify` / consumed by
`JSON.parse` on this data (persistence is modelled at the JSON-value
level; `stringify` then `parse` of such a value is the identity). -/
inductive JVal where
  | jstr (s : String)
  | jbool (b : Bool)
  | jarr (xs : List JVal)
  | jobj (fields : List (String × JVal))

/-- `JSON.stringify` of one todo: an object with keys in the insertion
order of the literal at line 94. -/
def encodeTodo (t : Todo) : JVal :=
  .jobj [("value", .jstr t.value), ("id", .jstr t.id), ("completed", .jbool t.completed)]

/-- `JSON.parse` of one stored todo record. -/
def decodeTodo : JVal → Option Todo
  | .jobj [("value", .jstr v), ("id", .jstr i), ("completed", .jbool c)] =>
      some { value := v, id := i, completed := c }
  | _ => none

/-- Line 53: `JSON.stringify(todos)` — the whole collection as a JSON
array. -/
def encodeTodos (todos : List Todo) : JVal :=
  .jarr (todos.map encodeTodo)

/-- `JSON.parse` of a stored list of records, element by element. -/
def decodeTodoList : List JVal → Option (List Todo)
  | [] => some []
  | x :: xs => do
      let t ← decodeTodo x
      let rest ← decodeTodoList xs
      pure (t :: rest)

/-- `JSON.parse` of a stored collection. -/
def decodeTodos : JVal → Option (List Todo)
  | .jarr xs => decodeTodoList xs
  | _ => none

/-- Lines 87–89, `readTodosInStorage`: a missing slot (`null`) defaults to
the string `'[]'`, i.e. the empty JSON array. -/
def loadTodos (slot : Option JVal) : Option (List Todo) :=
  decodeTodos (slot.getD (.jarr []))

/-- An effect performed by the `save` listener (lines 129–132), in
execution order: `saveTodos()` writes the serialized collection, then
`renderTodos()` re-renders. -/
inductive Effect where
  | persist (data : JVal)
  | render

/-- The application state the claims quantify over: the in-memory `todos`
array, the persistence slot (`window.localStorage` under the fixed key),
and the effect trace of the last handled event. -/
structure AppState where
  todos : List Todo
  stored : Option JVal
  trace : List Effect

/-- One user operation on the controller, carrying what the DOM supplies:
for Add the key, keyCode, raw input text and the freshly generated id; for
Toggle/Remove/Edit-commit the id found on the closest row (successful
lookup), and for Edit-commit the rendered text content of the row. -/
inductive Op where
  | addKey (key : String) (keyCode : Nat) (inputValue freshId : String)
  | toggleClick (rowId : String)
  | removeClick (rowId : String)
  | editCommit (rowId : String) (content : String)

/-- Lines 129–132: the `save` listener runs `saveTodos()` (write the full
serialized collection to the slot) and then `renderTodos()`. The trace
records the two effects in that execution order. -/
def dispatchSave (s : AppState) : AppState :=
  { s with stored := some (encodeTodos s.todos),
           trace := [Effect.persist (encodeTodos s.todos), Effect.render] }

/-- One handler invocation: mutate the collection as the corresponding
listener does, then dispatch `save` exactly when the listener does (the
Add listener dispatches only inside its guard; the other three always
dispatch after their mutation). -/
def applyStep (s : AppState) : Op → AppState
  | .addKey key keyCode v freshId =>
      if (key = "Enter" ∨ keyCode = 13) ∧ jsTrim v ≠ "" then
        dispatchSave { s with todos := s.todos ++ [{ value := v, id := freshId, completed := false }] }
      else { s with trace := [] }
  | .toggleClick rowId => dispatchSave { s with todos := toggleOp s.todos rowId }
  | .removeClick rowId => dispatchSave { s with todos := removeOp s.todos rowId }
  | .editCommit rowId content => dispatchSave { s with todos := editOp s.todos rowId content }

/-- A sequence of operations applied in order. -/
def runOps (s : AppState) (ops : List Op) : AppState :=
  ops.foldl applyStep s

/-- Collections reachable from the empty collection by the four
operations, with Add drawing an id not already in the collection (the
fresh-id assumption of the uniqueness claim). -/
inductive Reachable : List Todo → Prop
  | empty : Reachable []
  | add {todos : List Todo} (value freshId : String)
      (hfresh : freshId ∉ todos.map Todo.id) :
      Reachable todos → Reachable (todos ++ [{ value := value, id := freshId, completed := false }])
  | toggle {todos : List Todo} (rowId : String) :
      Reachable todos → Reachable (toggleOp todos rowId)
  | remove {todos : List Todo} (rowId : String) :
      Reachable todos → Reachable (removeOp todos rowId)
  | edit {todos : List Todo} (rowId content : String) :
      Reachable todos → Reachable (editOp todos rowId content)

theorem decodeTodo_encodeTodo (t : Todo) : decodeTodo (encodeTodo t) = some t := rfl

theorem decodeTodos_encodeTodos (todos : List Todo) :
    decodeTodos (encodeTodos todos) = some todos := by
  induction todos with
  | nil => rfl
  | cons t rest ih =>
      simp only [encodeTodos, decodeTodos, List.map_cons, decodeTodoList,
        decodeTodo_encodeTodo] at *
      simp [ih]

theorem filter_not_completed_eq (todos : List Todo) :
    todos.filter (fun t => !t.completed) = todos.filter (fun t => t.completed = false) := by
  apply List.filter_congr
  intro a _
  cases a.completed <;> rfl

/-- C4: the rendered subset is exactly the not-completed items under
`active`, exactly the completed items under `completed`, and the whole
collection under `all`, any other string and the empty string from an
absent fragment; displayed order is collection order (a sublist of the
collection in every case). -/
theorem renderVisible_filter_rule (todos : List Todo) (f : String) :
    renderVisible todos "active" = todos.filter (fun t => t.completed = false) ∧
    renderVisible todos "completed" = todos.filter (fun t => t.completed = true) ∧
    (f ≠ "active" ∧ f ≠ "completed" → renderVisible todos f = todos) ∧
    renderVisible todos (getURLHash "") = todos ∧
    (renderVisible todos f).Sublist todos := by
  refine ⟨?_, ?_, ?_, ?_, ?_⟩
  · rw [renderVisible, if_pos rfl]
    exact filter_not_completed_eq todos
  · rw [renderVisible, if_neg (by decide), if_pos rfl]
    apply List.filter_congr
    intro a _
    cases a.completed <;> rfl
  · intro h
    rw [renderVisible, if_neg h.1, if_neg h.2]
  · rw [show getURLHash "" = "" from rfl, renderVisible,
      if_neg (by decide), if_neg (by decide)]
  · rw [renderVisible]
    split
    · exact List.filter_sublist todos
    · split
      · exact List.filter_sublist todos
      · exact List.Sublist.refl todos

/-- C4 witness: an unrecognized filter string renders the whole
collection. -/
theorem renderVisible_filter_rule_witness :
    renderVisible [⟨"A", "1", false⟩] "bogus" = [⟨"A", "1", false⟩] :=
  (renderVisible_filter_rule [⟨"A", "1", false⟩] "bogus").2.2.1 ⟨by decide, by decide⟩

/-- C5: the remaining-count text is computed from the FULL unfiltered
collection (number of items with `completed = false`) and is therefore
independent of the URL hash; on `[{A,false},{B,true},{C,false}]` it is
`2 items left` under `all`, `active` and `completed` alike. -/
theorem renderTodos_count_full_collection (todos : List Todo) (h1 h2 : String) :
    (renderTodos todos h1).countText =
      toString (todos.filter (fun t => t.completed = false)).length ++ " items left" ∧
    (renderTodos todos h1).countText = (renderTodos todos h2).countText ∧
    (renderTodos [⟨"A", "1", false⟩, ⟨"B", "2", true⟩, ⟨"C", "3", false⟩] "#/all").countText
      = "2 items left" ∧
    (renderTodos [⟨"A", "1", false⟩, ⟨"B", "2", true⟩, ⟨"C", "3", false⟩] "#/active").countText
      = "2 items left" ∧
    (renderTodos [⟨"A", "1", false⟩, ⟨"B", "2", true⟩, ⟨"C", "3", false⟩] "#/completed").countText
      = "2 items left" := by
  refine ⟨?_, rfl, rfl, rfl, rfl⟩
  rw [renderTodos]
  show countText todos = _
  rw [countText, filterNotCompletedTodos, filter_not_completed_eq]

/-- C6: on an Enter keyup, empty or all-whitespace trimmed input leaves
the collection unchanged; non-empty trimmed input appends exactly one new
item with the fresh id and `completed = false`, pre-existing items and
their order untouched. -/
theorem addKeyup_guard (key : String) (kc : Nat) (v fid : String) (todos : List Todo) :
    (jsTrim v = "" → handleAddKeyup key kc v fid todos = todos) ∧
    ((key = "Enter" ∨ kc = 13) → jsTrim v ≠ "" →
      handleAddKeyup key kc v fid todos
        = todos ++ [{ value := v, id := fid, completed := false }]) := by
  constructor
  · intro h
    rw [handleAddKeyup, if_neg (fun hc => hc.2 h)]
  · intro hk hv
    rw [handleAddKeyup, if_pos ⟨hk, hv⟩]

/-- C6 witness: an all-whitespace add is rejected; a non-empty add appends
one item. -/
theorem addKeyup_guard_witness :
    handleAddKeyup "Enter" 13 "   " "i1" [⟨"a", "0", false⟩] = [⟨"a", "0", false⟩] ∧
    handleAddKeyup "Enter" 13 "buy milk" "i1" [] = [⟨"buy milk", "i1", false⟩] :=
  ⟨(addKeyup_guard "Enter" 13 "   " "i1" [⟨"a", "0", false⟩]).1 (by decide),
   (addKeyup_guard "Enter" 13 "buy milk" "i1" []).2 (Or.inl rfl) (by decide)⟩

/-- C7: Toggle flips exactly the matching item's `completed` flag, keeping
every id and value, every non-matching item, and the positions (stated
pointwise via `Forall₂`); toggling the same id twice restores the original
collection. -/
theorem toggleOp_frame (todos : List Todo) (rowId : String) :
    List.Forall₂ (fun t t' => t'.id = t.id ∧ t'.value = t.value ∧
      t'.completed = (if t.id = rowId then !t.completed else t.completed))
      todos (toggleOp todos rowId) ∧
    toggleOp (toggleOp todos rowId) rowId = todos := by
  constructor
  · induction todos with
    | nil => exact List.Forall₂.nil
    | cons t rest ih =>
        refine List.Forall₂.cons ?_ ih
        by_cases h : t.id = rowId <;> simp [toggleOp, h]
  · induction todos with
    | nil => rfl
    | cons t rest ih =>
        obtain ⟨tv, ti, tc⟩ := t
        simp only [toggleOp, List.map_cons] at ih ⊢
        by_cases h : ti = rowId <;> simp [h, ih]

/-- C8: Remove drops exactly the items whose id matches, the remaining
items keeping their relative order (a sublist of the original); removing
an id present on no item leaves the collection unchanged. -/
theorem removeOp_spec (todos : List Todo) (rowId : String) :
    (removeOp todos rowId).Sublist todos ∧
    (∀ t : Todo, t ∈ removeOp todos rowId ↔ t ∈ todos ∧ t.id ≠ rowId) ∧
    ((∀ t ∈ todos, t.id ≠ rowId) → removeOp todos rowId = todos) := by
  refine ⟨List.filter_sublist todos, ?_, ?_⟩
  · intro t
    simp [removeOp, List.mem_filter]
  · intro h
    rw [removeOp, List.filter_eq_self.mpr]
    intro a ha
    simpa using h a ha

/-- C8 witness: removing an id that no item carries is the identity. -/
theorem removeOp_spec_witness :
    removeOp [⟨"a", "1", false⟩] "2" = [⟨"a", "1", false⟩] :=
  (removeOp_spec [⟨"a", "1", false⟩] "2").2.2 (by decide)

/-- C10: a successful Add stores the RAW input text as the new item's
value — trimming is applied only to the non-empty guard, so the
surrounding whitespace of the input survives. -/
theorem addKeyup_raw_value (v fid : String) (todos : List Todo) (h : jsTrim v ≠ "") :
    handleAddKeyup "Enter" 13 v fid todos
      = todos ++ [{ value := v, id := fid, completed := false }] := by
  rw [handleAddKeyup, if_pos ⟨Or.inl rfl, h⟩]

/-- C10 witness: adding the input `" x "` stores value `" x "`, whose trim
is the distinct string `"x"`. -/
theorem addKeyup_raw_value_witness :
    handleAddKeyup "Enter" 13 " x " "i1" [] = [{ value := " x ", id := "i1", completed := false }] ∧
    jsTrim " x " = "x" :=
  ⟨addKeyup_raw_value " x " "i1" [] (by decide), by decide⟩

theorem toggleOp_map_id (todos : List Todo) (rowId : String) :
    (toggleOp todos rowId).map Todo.id = todos.map Todo.id := by
  induction todos with
  | nil => rfl
  | cons t rest ih =>
      simp only [toggleOp, List.map_cons] at ih ⊢
      by_cases h : t.id = rowId <;> simp [h, ih]

theorem editOp_map_id (todos : List Todo) (rowId content : String) :
    (editOp todos rowId content).map Todo.id = todos.map Todo.id := by
  induction todos with
  | nil => rfl
  | cons t rest ih =>
      simp only [editOp, List.map_cons] at ih ⊢
      by_cases h : t.id = rowId <;> simp [h, ih]

/-- C9: every collection reachable from the empty one by the four
operations (Add drawing an id not already present) has pairwise distinct
ids — Toggle and Edit-commit keep the id sequence, Remove keeps a
subsequence of it, Add appends the fresh id. -/
theorem reachable_id_nodup (todos : List Todo) (h : Reachable todos) :
    (todos.map Todo.id).Nodup := by
  induction h with
  | empty => exact List.nodup_nil
  | add value freshId hfresh _ ih =>
      rw [List.map_append, List.map_cons, List.map_nil, List.nodup_append]
      refine ⟨ih, List.nodup_singleton _, ?_⟩
      intro a ha hb
      rw [List.mem_singleton] at hb
      subst hb
      exact hfresh ha
  | toggle rowId _ ih => rw [toggleOp_map_id]; exact ih
  | remove rowId _ ih =>
      exact List.Nodup.sublist (List.Sublist.map Todo.id (List.filter_sublist _)) ih
  | edit rowId content _ ih => rw [editOp_map_id]; exact ih

/-- C9 witness: a collection built by add, toggle and add has distinct
ids. -/
theorem reachable_id_nodup_witness :
    ((toggleOp [{ value := "a", id := "1", completed := false }] "1"
        ++ [({ value := "b", id := "2", completed := false } : Todo)]).map Todo.id).Nodup :=
  reachable_id_nodup _
    (Reachable.add "b" "2" (by decide)
      (Reachable.toggle "1" (Reachable.add "a" "1" (by decide) Reachable.empty)))

theorem dispatchSave_synced (s : AppState) :
    loadTodos (dispatchSave s).stored = some (dispatchSave s).todos := by
  show loadTodos (some (encodeTodos s.todos)) = some s.todos
  show decodeTodos (encodeTodos s.todos) = some s.todos
  exact decodeTodos_encodeTodos s.todos

theorem applyStep_synced (s : AppState) (op : Op)
    (h : loadTodos s.stored = some s.todos) :
    loadTodos (applyStep s op).stored = some (applyStep s op).todos := by
  cases op with
  | addKey key kc v fid =>
      rw [applyStep]
      split
      · exact dispatchSave_synced _
      · exact h
  | toggleClick rowId => exact dispatchSave_synced _
  | removeClick rowId => exact dispatchSave_synced _
  | editCommit rowId content => exact dispatchSave_synced _

/-- C1: starting from any state whose persistence slot deserializes to the
in-memory collection (as after startup), after every sequence of
Add/Toggle/Remove/Edit-commit operations the slot again deserializes to
exactly the in-memory collection; and every single operation either emits
no effect (a rejected Add) or emits exactly the trace
`[persist (serialized current collection), render]` — the effect trace is
in execution order, so the persistence write precedes the re-render. -/
theorem runOps_persist_sync (s : AppState) (ops : List Op)
    (h : loadTodos s.stored = some s.todos) :
    loadTodos (runOps s ops).stored = some (runOps s ops).todos ∧
    (∀ t : AppState, ∀ op : Op,
      (applyStep t op).trace = [] ∨
      (applyStep t op).trace
        = [Effect.persist (encodeTodos (applyStep t op).todos), Effect.render]) := by
  constructor
  · induction ops generalizing s with
    | nil => exact h
    | cons op rest ih => exact ih (applyStep s op) (applyStep_synced s op h)
  · intro t op
    cases op with
    | addKey key kc v fid =>
        rw [applyStep]
        split
        · exact Or.inr rfl
        · exact Or.inl rfl
    | toggleClick rowId => exact Or.inr rfl
    | removeClick rowId => exact Or.inr rfl
    | editCommit rowId content => exact Or.inr rfl

/-- C1 witness: from empty storage, the sequence add, toggle, edit-commit,
remove keeps the slot in sync with memory. -/
theorem runOps_persist_sync_witness :
    loadTodos (runOps ⟨[], none, []⟩
      [Op.addKey "Enter" 13 "buy milk" "u1", Op.toggleClick "u1",
       Op.editCommit "u1" "buy bread", Op.removeClick "u1"]).stored
      = some (runOps ⟨[], none, []⟩
      [Op.addKey "Enter" 13 "buy milk" "u1", Op.toggleClick "u1",
       Op.editCommit "u1" "buy bread", Op.removeClick "u1"]).todos :=
  (runOps_persist_sync ⟨[], none, []⟩
      [Op.addKey "Enter" 13 "buy milk" "u1", Op.toggleClick "u1",
       Op.editCommit "u1" "buy bread", Op.removeClick "u1"] rfl).1

/-- C2 counterexample: a Shift+Enter keydown (keyCode 13, `shiftKey`
true) in a row's editable region DOES commit the edit — the handler's
guard is `event.keyCode === 13` alone, so the claim's "not Shift+Enter"
fails: the collection changes where the claim requires no commit. -/
theorem editKeydown_shift_enter_commits :
    editKeydownHandler { keyCode := 13, shiftKey := true }
        (some { id := "a", textContent := "new" }) [⟨"old", "a", false⟩]
      = .ok (true, [⟨"new", "a", false⟩]) ∧
    ([⟨"new", "a", false⟩] : List Todo) ≠ [⟨"old", "a", false⟩] :=
  ⟨rfl, by decide⟩

/-- C2 (amended): edit-commit fires exactly on a keydown with keyCode 13
regardless of the Shift modifier; it suppresses the default newline
insertion (`preventDefault`, the `true` flag) and replaces only the
matching item's value with the row's rendered text content, leaving ids,
completed flags, every other item and all positions unchanged; any other
keyCode is a no-op without `preventDefault`. -/
theorem editKeydown_commit (ev : KeyEvent) (row : RowEl) (todos : List Todo) :
    (ev.keyCode = 13 →
      editKeydownHandler ev (some row) todos
        = .ok (true, editOp todos row.id row.textContent) ∧
      List.Forall₂ (fun t t' => t'.id = t.id ∧ t'.completed = t.completed ∧
        t'.value = (if t.id = row.id then row.textContent else t.value))
        todos (editOp todos row.id row.textContent)) ∧
    (ev.keyCode ≠ 13 → editKeydownHandler ev (some row) todos = .ok (false, todos)) := by
  constructor
  · intro h13
    refine ⟨by rw [editKeydownHandler, if_pos h13], ?_⟩
    induction todos with
    | nil => exact List.Forall₂.nil
    | cons t rest ih =>
        refine List.Forall₂.cons ?_ ih
        by_cases h : t.id = row.id <;> simp [editOp, h]
  · intro h
    rw [editKeydownHandler, if_neg h]

/-- C2 witness: Enter commits the row text; the keycode 65 key `a` leaves
the collection alone. -/
theorem editKeydown_commit_witness :
    editKeydownHandler { keyCode := 13, shiftKey := false }
        (some { id := "a", textContent := "txt" }) [⟨"v", "a", true⟩]
      = .ok (true, [⟨"txt", "a", true⟩]) ∧
    editKeydownHandler { keyCode := 65, shiftKey := false }
        (some { id := "a", textContent := "txt" }) [⟨"v", "a", true⟩]
      = .ok (false, [⟨"v", "a", true⟩]) :=
  ⟨(((editKeydown_commit { keyCode := 13, shiftKey := false }
        { id := "a", textContent := "txt" } [⟨"v", "a", true⟩]).1 rfl).1).trans rfl,
   (editKeydown_commit { keyCode := 65, shiftKey := false }
        { id := "a", textContent := "txt" } [⟨"v", "a", true⟩]).2 (by decide)⟩

/-- C3: a delegated event whose closest-row lookup yields `null` is NOT a
silent no-op in this code: on a non-empty collection the toggle and remove
handlers, and on any collection the keyCode-13 edit handler, evaluate
`el.dataset.id` / `el.querySelector(...)` on `null` and raise a TypeError
instead (the collection itself is never reassigned). -/
theorem null_row_lookup_raises :
    toggleClickHandler none [⟨"v", "a", false⟩]
      = .error "TypeError: Cannot read properties of null" ∧
    removeClickHandler none [⟨"v", "a", false⟩]
      = .error "TypeError: Cannot read properties of null" ∧
    editKeydownHandler { keyCode := 13, shiftKey := false } none []
      = .error "TypeError: Cannot read properties of null" :=
  ⟨rfl, rfl, rfl⟩
